import Mathlib

/-!
Shallow embedding of the toy payment engine (src/account.rs, src/transaction.rs).

Monetary amounts (`rust_decimal::Decimal`) are embedded as rationals: the
operations the ledger performs on them (addition, subtraction, order
comparison) are exact on `Decimal`, and every `Decimal` value is a rational.
The `BTreeMap`/`BTreeSet` containers are embedded extensionally, as functions
from keys to `Option` values (resp. to `Bool`): `BTreeMap` equality in Rust is
exactly equality of the key-to-value mapping.
-/

namespace ToyPayment

/-- Embeds `struct Account { available, held: Decimal, locked: bool }`
from src/account.rs. -/
structure Account where
  available : ℚ
  held : ℚ
  locked : Bool
deriving DecidableEq, Repr

/-- The value produced by `Account::default()` (derived `Default`):
zero balances, unlocked. -/
def defaultAccount : Account := { available := 0, held := 0, locked := false }

/-- Embeds `struct TransactionAmountData { client: u16, tx: u32, amount: Decimal }`
from src/transaction.rs. Client and tx ids are embedded as naturals. -/
structure TransactionAmountData where
  client : ℕ
  tx : ℕ
  amount : ℚ
deriving DecidableEq, Repr

/-- Embeds `struct TransactionData { client: u16, tx: u32 }` from
src/transaction.rs. -/
structure TransactionData where
  client : ℕ
  tx : ℕ
deriving DecidableEq, Repr

/-- Embeds `enum Transaction` from src/transaction.rs. -/
inductive Transaction where
  | Deposit (data : TransactionAmountData)
  | Withdrawal (data : TransactionAmountData)
  | Dispute (data : TransactionData)
  | Resolve (data : TransactionData)
  | Chargeback (data : TransactionData)
deriving DecidableEq, Repr

/-- Embeds `Transaction::client_id` from src/transaction.rs. -/
def Transaction.client_id : Transaction → ℕ
  | .Deposit data | .Withdrawal data => data.client
  | .Dispute data | .Resolve data | .Chargeback data => data.client

/-- Pointwise map update: the effect of `BTreeMap::insert` / the write-back of
a mutated `entry`, seen extensionally. -/
def mapSet {α : Type} (m : ℕ → α) (k : ℕ) (v : α) : ℕ → α :=
  fun j => if j = k then v else m j

/-- Embeds `struct Bank` from src/account.rs: `accounts` is the client-id to
account map, `deposits` the tx-id to deposit-record map, `disputes` the set of
disputed tx ids (as its membership function). -/
structure Bank where
  accounts : ℕ → Option Account
  deposits : ℕ → Option TransactionAmountData
  disputes : ℕ → Bool

/-- The `Bank::default()` starting state: every map empty. -/
def Bank.empty : Bank :=
  { accounts := fun _ => none, deposits := fun _ => none, disputes := fun _ => false }

/-- Embeds `Bank::handle_transaction` from src/account.rs.  Note the Rust
code's `self.accounts.entry(client).or_default()` inserts a default account
before anything else; every branch therefore writes the (possibly unchanged)
account back at the client's key.  `disputes.remove(&tx)` in the Resolve and
Chargeback arms removes the id whenever it was present, before the deposit
record lookup. -/
def Bank.handle_transaction (b : Bank) (t : Transaction) : Bank :=
  let client := t.client_id
  let account := (b.accounts client).getD defaultAccount
  if account.locked then
    { b with accounts := mapSet b.accounts client (some account) }
  else
    match t with
    | .Deposit data =>
        { b with
          accounts := mapSet b.accounts client
            (some { account with available := account.available + data.amount }),
          deposits := mapSet b.deposits data.tx (some data) }
    | .Withdrawal data =>
        if data.amount ≤ account.available then
          { b with
            accounts := mapSet b.accounts client
              (some { account with available := account.available - data.amount }) }
        else
          { b with accounts := mapSet b.accounts client (some account) }
    | .Dispute data =>
        match b.deposits data.tx with
        | some disputed_deposit =>
            if data.client = disputed_deposit.client then
              { b with
                accounts := mapSet b.accounts client
                  (some { account with
                    available := account.available - disputed_deposit.amount,
                    held := account.held + disputed_deposit.amount }),
                disputes := mapSet b.disputes data.tx true }
            else
              { b with accounts := mapSet b.accounts client (some account) }
        | none => { b with accounts := mapSet b.accounts client (some account) }
    | .Resolve data =>
        if b.disputes data.tx then
          match b.deposits data.tx with
          | some disputed_deposit =>
              if data.client = disputed_deposit.client then
                { b with
                  accounts := mapSet b.accounts client
                    (some { account with
                      held := account.held - disputed_deposit.amount,
                      available := account.available + disputed_deposit.amount }),
                  disputes := mapSet b.disputes data.tx false }
              else
                { b with
                  accounts := mapSet b.accounts client (some account),
                  disputes := mapSet b.disputes data.tx false }
          | none =>
              { b with
                accounts := mapSet b.accounts client (some account),
                disputes := mapSet b.disputes data.tx false }
        else
          { b with accounts := mapSet b.accounts client (some account) }
    | .Chargeback data =>
        if b.disputes data.tx then
          match b.deposits data.tx with
          | some disputed_deposit =>
              if data.client = disputed_deposit.client then
                { b with
                  accounts := mapSet b.accounts client
                    (some { account with
                      held := account.held - disputed_deposit.amount,
                      locked := true }),
                  disputes := mapSet b.disputes data.tx false }
              else
                { b with
                  accounts := mapSet b.accounts client (some account),
                  disputes := mapSet b.disputes data.tx false }
          | none =>
              { b with
                accounts := mapSet b.accounts client (some account),
                disputes := mapSet b.disputes data.tx false }
        else
          { b with accounts := mapSet b.accounts client (some account) }

/-- The account a client id resolves to, exactly as `handle_transaction`
resolves it: the stored account, or a default one if the client has none. -/
def Bank.view (b : Bank) (c : ℕ) : Account :=
  (b.accounts c).getD defaultAccount

/-- A client's available plus held funds. -/
def Bank.total (b : Bank) (c : ℕ) : ℚ :=
  (b.view c).available + (b.view c).held

/-- Fold a transaction list through `handle_transaction` from a given state. -/
def Bank.runFrom (b : Bank) (ts : List Transaction) : Bank :=
  ts.foldl Bank.handle_transaction b

/-- Replay a transaction list from the empty bank, as `main` feeds the record
stream to the ledger. -/
def applyAll (ts : List Transaction) : Bank :=
  Bank.runFrom Bank.empty ts

/-- Amount a transaction contributes to client `c` as an applied deposit, when
fed to `handle_transaction` in state `b`: the deposit's amount when the
deposit is for `c` and actually applied (the account is not locked). -/
def depositContrib (b : Bank) (t : Transaction) (c : ℕ) : ℚ :=
  match t with
  | .Deposit data =>
      if data.client = c ∧ (b.view data.client).locked = false then data.amount else 0
  | _ => 0

/-- Amount a transaction removes from client `c` as a successful withdrawal,
when fed to `handle_transaction` in state `b`: the withdrawal's amount when it
is for `c`, the account is not locked, and the amount is at most the available
funds at apply time. -/
def withdrawalContrib (b : Bank) (t : Transaction) (c : ℕ) : ℚ :=
  match t with
  | .Withdrawal data =>
      if data.client = c ∧ (b.view data.client).locked = false ∧
          data.amount ≤ (b.view data.client).available then data.amount else 0
  | _ => 0

/-- Amount a transaction removes from client `c` as a successful chargeback,
when fed to `handle_transaction` in state `b`: the disputed deposit's amount
when the account is not locked, the tx is under dispute, its deposit record
exists, and the client ids match. -/
def chargebackContrib (b : Bank) (t : Transaction) (c : ℕ) : ℚ :=
  match t with
  | .Chargeback data =>
      if (b.view data.client).locked = false ∧ b.disputes data.tx = true then
        match b.deposits data.tx with
        | some dep => if data.client = dep.client ∧ data.client = c then dep.amount else 0
        | none => 0
      else 0
  | _ => 0

/-- Sum of a per-transaction contribution over a transaction list, tracking
the evolving bank state the way `handle_transaction` is folded over it. -/
def contribSum (f : Bank → Transaction → ℕ → ℚ) : Bank → List Transaction → ℕ → ℚ
  | _, [], _ => 0
  | b, t :: ts, c => f b t c + contribSum f (b.handle_transaction t) ts c

/-- The deposit → dispute → chargeback scenario of spec section 8, run from an
arbitrary starting state. -/
def depositDisputeChargeback (b : Bank) (c tx : ℕ) (A : ℚ) : Bank :=
  ((b.handle_transaction (.Deposit ⟨c, tx, A⟩)).handle_transaction
      (.Dispute ⟨c, tx⟩)).handle_transaction (.Chargeback ⟨c, tx⟩)

/-- The deposit → dispute → resolve scenario of spec section 8, run from an
arbitrary starting state. -/
def depositDisputeResolve (b : Bank) (c tx : ℕ) (A : ℚ) : Bank :=
  ((b.handle_transaction (.Deposit ⟨c, tx, A⟩)).handle_transaction
      (.Dispute ⟨c, tx⟩)).handle_transaction (.Resolve ⟨c, tx⟩)

/-- Concrete state: client 1 deposited 5. -/
def simpleDemo : Bank := applyAll [.Deposit ⟨1, 1, 5⟩]

/-- Concrete state: client 1 deposited 5 and the deposit is under dispute. -/
def disputedDemo : Bank := applyAll [.Deposit ⟨1, 1, 5⟩, .Dispute ⟨1, 1⟩]

/-- Concrete state: client 1 deposited 5, disputed it and was charged back,
so the account is locked. -/
def lockedDemo : Bank := applyAll [.Deposit ⟨1, 1, 5⟩, .Dispute ⟨1, 1⟩, .Chargeback ⟨1, 1⟩]

/-- Embeds `TransactionIterator::EXPECTED_HEADER` from src/transaction.rs. -/
def EXPECTED_HEADER : List String := ["type", "client", "tx", "amount"]

/-- Outcome of the header validation in `TransactionIterator::from_reader`. -/
inductive HeaderCheck where
  | ok
  | invalidHeader (header : List String)
deriving DecidableEq, Repr

/-- Strip leading and trailing whitespace characters from a character list. -/
def trimChars (s : List Char) : List Char :=
  ((s.dropWhile Char.isWhitespace).reverse.dropWhile Char.isWhitespace).reverse

/-- Whitespace trimming of one cell, as `StringRecord::trim` applies it to
each field of the header record. -/
def trimCell (s : String) : String := String.mk (trimChars s.data)

/-- Character-wise lowercasing of one cell. -/
def lowerCell (s : String) : String := String.mk (s.data.map Char.toLower)

/-- Embeds the header validation of `TransactionIterator::from_reader` from
src/transaction.rs: the parsed header row (a list of cell strings) is trimmed
cell by cell in place, then compared to `EXPECTED_HEADER`; on mismatch the
trimmed header is reported in an `InvalidHeader` error. -/
def from_reader (header : List String) : HeaderCheck :=
  let trimmed := header.map trimCell
  if trimmed = EXPECTED_HEADER then .ok else .invalidHeader trimmed

/-- Modelled from the spec claim wording, for comparison with `from_reader`:
a header matches when its cells, compared case-insensitively and ignoring
surrounding whitespace, are `type, client, tx, amount` in that order. -/
def headerMatchesSpec (header : List String) : Bool :=
  (header.map fun s => lowerCell (trimCell s)) = (EXPECTED_HEADER.map lowerCell)

theorem Bank.ext_of_pointwise {b1 b2 : Bank}
    (h1 : ∀ c, b1.accounts c = b2.accounts c)
    (h2 : ∀ j, b1.deposits j = b2.deposits j)
    (h3 : ∀ j, b1.disputes j = b2.disputes j) : b1 = b2 := by
  cases b1; cases b2
  simp only [Bank.mk.injEq]
  exact ⟨funext h1, funext h2, funext h3⟩

theorem mapSet_self {α : Type} (m : ℕ → α) (k : ℕ) (v : α) : mapSet m k v k = v := by
  simp [mapSet]

theorem mapSet_of_ne {α : Type} (m : ℕ → α) {k j : ℕ} (v : α) (h : j ≠ k) :
    mapSet m k v j = m j := by
  simp [mapSet, h]

theorem mapSet_id {α : Type} (m : ℕ → α) (k : ℕ) : mapSet m k (m k) = m := by
  funext j
  by_cases h : j = k <;> simp [mapSet, h]

theorem handle_locked (b : Bank) (t : Transaction)
    (h : (b.view t.client_id).locked = true) :
    b.handle_transaction t =
      { b with accounts := mapSet b.accounts t.client_id (some (b.view t.client_id)) } := by
  have h' : ((b.accounts t.client_id).getD defaultAccount).locked = true := h
  simp [Bank.handle_transaction, Bank.view, h']

theorem handle_deposit (b : Bank) (d : TransactionAmountData)
    (h : (b.view d.client).locked = false) :
    b.handle_transaction (.Deposit d) =
      { b with
        accounts := mapSet b.accounts d.client
          (some { b.view d.client with available := (b.view d.client).available + d.amount }),
        deposits := mapSet b.deposits d.tx (some d) } := by
  have h' : ((b.accounts d.client).getD defaultAccount).locked = false := h
  simp [Bank.handle_transaction, Transaction.client_id, Bank.view, h']

theorem handle_withdrawal_applied (b : Bank) (d : TransactionAmountData)
    (h : (b.view d.client).locked = false)
    (hle : d.amount ≤ (b.view d.client).available) :
    b.handle_transaction (.Withdrawal d) =
      { b with
        accounts := mapSet b.accounts d.client
          (some { b.view d.client with available := (b.view d.client).available - d.amount }) } := by
  have h' : ((b.accounts d.client).getD defaultAccount).locked = false := h
  have hle' : d.amount ≤ ((b.accounts d.client).getD defaultAccount).available := hle
  simp [Bank.handle_transaction, Transaction.client_id, Bank.view, h', hle']

theorem handle_withdrawal_declined (b : Bank) (d : TransactionAmountData)
    (h : (b.view d.client).locked = false)
    (hgt : ¬ d.amount ≤ (b.view d.client).available) :
    b.handle_transaction (.Withdrawal d) =
      { b with accounts := mapSet b.accounts d.client (some (b.view d.client)) } := by
  have h' : ((b.accounts d.client).getD defaultAccount).locked = false := h
  have hgt' : ¬ d.amount ≤ ((b.accounts d.client).getD defaultAccount).available := hgt
  simp [Bank.handle_transaction, Transaction.client_id, Bank.view, h', hgt']

theorem handle_dispute_missing (b : Bank) (d : TransactionData)
    (h : (b.view d.client).locked = false)
    (habs : b.deposits d.tx = none) :
    b.handle_transaction (.Dispute d) =
      { b with accounts := mapSet b.accounts d.client (some (b.view d.client)) } := by
  have h' : ((b.accounts d.client).getD defaultAccount).locked = false := h
  simp [Bank.handle_transaction, Transaction.client_id, Bank.view, h', habs]

theorem handle_dispute_mismatch (b : Bank) (d : TransactionData) (dep : TransactionAmountData)
    (h : (b.view d.client).locked = false)
    (hdep : b.deposits d.tx = some dep) (hne : d.client ≠ dep.client) :
    b.handle_transaction (.Dispute d) =
      { b with accounts := mapSet b.accounts d.client (some (b.view d.client)) } := by
  have h' : ((b.accounts d.client).getD defaultAccount).locked = false := h
  simp [Bank.handle_transaction, Transaction.client_id, Bank.view, h', hdep, hne]

theorem handle_dispute_found (b : Bank) (d : TransactionData) (dep : TransactionAmountData)
    (h : (b.view d.client).locked = false)
    (hdep : b.deposits d.tx = some dep) (hcl : d.client = dep.client) :
    b.handle_transaction (.Dispute d) =
      { b with
        accounts := mapSet b.accounts d.client
          (some { b.view d.client with
            available := (b.view d.client).available - dep.amount,
            held := (b.view d.client).held + dep.amount }),
        disputes := mapSet b.disputes d.tx true } := by
  have h' : ((b.accounts d.client).getD defaultAccount).locked = false := h
  have h2 : ((b.accounts dep.client).getD defaultAccount).locked = false := hcl ▸ h'
  simp [Bank.handle_transaction, Transaction.client_id, Bank.view, h', h2, hdep, hcl]

theorem handle_resolve_not_disputed (b : Bank) (d : TransactionData)
    (h : (b.view d.client).locked = false)
    (hnd : b.disputes d.tx = false) :
    b.handle_transaction (.Resolve d) =
      { b with accounts := mapSet b.accounts d.client (some (b.view d.client)) } := by
  have h' : ((b.accounts d.client).getD defaultAccount).locked = false := h
  simp [Bank.handle_transaction, Transaction.client_id, Bank.view, h', hnd]

theorem handle_resolve_missing (b : Bank) (d : TransactionData)
    (h : (b.view d.client).locked = false)
    (hd : b.disputes d.tx = true) (habs : b.deposits d.tx = none) :
    b.handle_transaction (.Resolve d) =
      { b with
        accounts := mapSet b.accounts d.client (some (b.view d.client)),
        disputes := mapSet b.disputes d.tx false } := by
  have h' : ((b.accounts d.client).getD defaultAccount).locked = false := h
  simp [Bank.handle_transaction, Transaction.client_id, Bank.view, h', hd, habs]

theorem handle_resolve_mismatch (b : Bank) (d : TransactionData) (dep : TransactionAmountData)
    (h : (b.view d.client).locked = false)
    (hd : b.disputes d.tx = true) (hdep : b.deposits d.tx = some dep)
    (hne : d.client ≠ dep.client) :
    b.handle_transaction (.Resolve d) =
      { b with
        accounts := mapSet b.accounts d.client (some (b.view d.client)),
        disputes := mapSet b.disputes d.tx false } := by
  have h' : ((b.accounts d.client).getD defaultAccount).locked = false := h
  simp [Bank.handle_transaction, Transaction.client_id, Bank.view, h', hd, hdep, hne]

theorem handle_resolve_found (b : Bank) (d : TransactionData) (dep : TransactionAmountData)
    (h : (b.view d.client).locked = false)
    (hd : b.disputes d.tx = true) (hdep : b.deposits d.tx = some dep)
    (hcl : d.client = dep.client) :
    b.handle_transaction (.Resolve d) =
      { b with
        accounts := mapSet b.accounts d.client
          (some { b.view d.client with
            held := (b.view d.client).held - dep.amount,
            available := (b.view d.client).available + dep.amount }),
        disputes := mapSet b.disputes d.tx false } := by
  have h' : ((b.accounts d.client).getD defaultAccount).locked = false := h
  have h2 : ((b.accounts dep.client).getD defaultAccount).locked = false := hcl ▸ h'
  simp [Bank.handle_transaction, Transaction.client_id, Bank.view, h', h2, hd, hdep, hcl]

theorem handle_chargeback_not_disputed (b : Bank) (d : TransactionData)
    (h : (b.view d.client).locked = false)
    (hnd : b.disputes d.tx = false) :
    b.handle_transaction (.Chargeback d) =
      { b with accounts := mapSet b.accounts d.client (some (b.view d.client)) } := by
  have h' : ((b.accounts d.client).getD defaultAccount).locked = false := h
  simp [Bank.handle_transaction, Transaction.client_id, Bank.view, h', hnd]

theorem handle_chargeback_missing (b : Bank) (d : TransactionData)
    (h : (b.view d.client).locked = false)
    (hd : b.disputes d.tx = true) (habs : b.deposits d.tx = none) :
    b.handle_transaction (.Chargeback d) =
      { b with
        accounts := mapSet b.accounts d.client (some (b.view d.client)),
        disputes := mapSet b.disputes d.tx false } := by
  have h' : ((b.accounts d.client).getD defaultAccount).locked = false := h
  simp [Bank.handle_transaction, Transaction.client_id, Bank.view, h', hd, habs]

theorem handle_chargeback_mismatch (b : Bank) (d : TransactionData) (dep : TransactionAmountData)
    (h : (b.view d.client).locked = false)
    (hd : b.disputes d.tx = true) (hdep : b.deposits d.tx = some dep)
    (hne : d.client ≠ dep.client) :
    b.handle_transaction (.Chargeback d) =
      { b with
        accounts := mapSet b.accounts d.client (some (b.view d.client)),
        disputes := mapSet b.disputes d.tx false } := by
  have h' : ((b.accounts d.client).getD defaultAccount).locked = false := h
  simp [Bank.handle_transaction, Transaction.client_id, Bank.view, h', hd, hdep, hne]

theorem handle_chargeback_found (b : Bank) (d : TransactionData) (dep : TransactionAmountData)
    (h : (b.view d.client).locked = false)
    (hd : b.disputes d.tx = true) (hdep : b.deposits d.tx = some dep)
    (hcl : d.client = dep.client) :
    b.handle_transaction (.Chargeback d) =
      { b with
        accounts := mapSet b.accounts d.client
          (some { b.view d.client with
            held := (b.view d.client).held - dep.amount,
            locked := true }),
        disputes := mapSet b.disputes d.tx false } := by
  have h' : ((b.accounts d.client).getD defaultAccount).locked = false := h
  have h2 : ((b.accounts dep.client).getD defaultAccount).locked = false := hcl ▸ h'
  simp [Bank.handle_transaction, Transaction.client_id, Bank.view, h', h2, hd, hdep, hcl]

theorem locked_no_op (b : Bank) (t : Transaction)
    (hsome : (b.accounts t.client_id).isSome = true)
    (hlock : (b.view t.client_id).locked = true) :
    b.handle_transaction t = b := by
  rw [handle_locked b t hlock]
  refine Bank.ext_of_pointwise ?_ (fun j => rfl) (fun j => rfl)
  intro c
  by_cases hc : c = t.client_id
  · subst hc
    rcases ho : b.accounts t.client_id with _ | a
    · rw [ho] at hsome; simp at hsome
    · simp [mapSet_self, Bank.view, ho]
  · simp [mapSet_of_ne _ _ hc]

/-- Claim C2: for every bank state (in particular every reachable one) and every
transaction whose client id names an existing account whose locked flag is
true, `handle_transaction` leaves the whole bank — the account's fields, the
deposits map and the disputed-set — unchanged, regardless of the
transaction's kind. -/
theorem locked_account_rejects_all (b : Bank) (t : Transaction)
    (hsome : (b.accounts t.client_id).isSome = true)
    (hlock : (b.view t.client_id).locked = true) :
    b.handle_transaction t = b :=
  locked_no_op b t hsome hlock

theorem locked_account_rejects_all_witness :
    lockedDemo.handle_transaction (.Deposit ⟨1, 2, 3⟩) = lockedDemo :=
  locked_account_rejects_all lockedDemo (.Deposit ⟨1, 2, 3⟩) (by rfl) (by rfl)

/-- Claim C7: a withdrawal on an unlocked account decreases available by the amount
when the amount is at most the available funds, and otherwise changes nothing
for any client (soft decline); consequently it never takes available from a
non-negative value to a negative one. -/
theorem withdrawal_soft_decline (b : Bank) (c tx : ℕ) (A : ℚ)
    (hunlocked : (b.view c).locked = false) :
    (A ≤ (b.view c).available →
      ((b.handle_transaction (.Withdrawal ⟨c, tx, A⟩)).view c).available
        = (b.view c).available - A) ∧
    (¬ A ≤ (b.view c).available →
      ((∀ c2, (b.handle_transaction (.Withdrawal ⟨c, tx, A⟩)).view c2 = b.view c2) ∧
       (∀ j, (b.handle_transaction (.Withdrawal ⟨c, tx, A⟩)).deposits j = b.deposits j) ∧
       (∀ j, (b.handle_transaction (.Withdrawal ⟨c, tx, A⟩)).disputes j = b.disputes j))) ∧
    (0 ≤ (b.view c).available →
      0 ≤ ((b.handle_transaction (.Withdrawal ⟨c, tx, A⟩)).view c).available) := by
  have hframe : ∀ c2, ({ b with accounts := mapSet b.accounts c (some (b.view c)) } : Bank).view c2
      = b.view c2 := by
    intro c2
    by_cases hc : c2 = c
    · subst hc; simp [Bank.view, mapSet_self]
    · simp [Bank.view, mapSet_of_ne _ _ hc]
  refine ⟨?_, ?_, ?_⟩
  · intro hle
    rw [handle_withdrawal_applied b ⟨c, tx, A⟩ hunlocked hle]
    simp [Bank.view, mapSet_self]
  · intro hgt
    rw [handle_withdrawal_declined b ⟨c, tx, A⟩ hunlocked hgt]
    exact ⟨hframe, fun j => rfl, fun j => rfl⟩
  · intro hnn
    by_cases hle : A ≤ (b.view c).available
    · rw [handle_withdrawal_applied b ⟨c, tx, A⟩ hunlocked hle]
      simp [Bank.view, mapSet_self] at hle hnn ⊢
      linarith
    · rw [handle_withdrawal_declined b ⟨c, tx, A⟩ hunlocked hle]
      rw [hframe c]
      exact hnn

theorem withdrawal_soft_decline_witness :
    ((simpleDemo.handle_transaction (.Withdrawal ⟨1, 2, 3⟩)).view 1).available
      = (simpleDemo.view 1).available - 3 :=
  (withdrawal_soft_decline simpleDemo 1 2 3 (by rfl)).1
    (by norm_num [simpleDemo, applyAll, Bank.runFrom, Bank.handle_transaction, Bank.view,
      mapSet, Bank.empty, defaultAccount, Transaction.client_id])

/-- Claim C8 (amended): a dispute whose tx has no stored deposit record changes the
deposits map, the disputed-set and every client's balances and lock state in
no way; the only possible change to the bank is the insertion of a fresh
default account for the dispute's client — in particular, when that client
already has an account the whole bank state is unchanged. -/
theorem dispute_missing_deposit (b : Bank) (d : TransactionData)
    (habs : b.deposits d.tx = none) :
    ((∀ j, (b.handle_transaction (.Dispute d)).deposits j = b.deposits j) ∧
     (∀ j, (b.handle_transaction (.Dispute d)).disputes j = b.disputes j) ∧
     (∀ c, (b.handle_transaction (.Dispute d)).view c = b.view c)) ∧
    ((b.accounts d.client).isSome = true → b.handle_transaction (.Dispute d) = b) := by
  have hshape : b.handle_transaction (.Dispute d)
      = { b with accounts := mapSet b.accounts d.client (some (b.view d.client)) } := by
    by_cases hl : (b.view d.client).locked = true
    · exact handle_locked b (.Dispute d) hl
    · simp only [Bool.not_eq_true] at hl
      exact handle_dispute_missing b d hl habs
  rw [hshape]
  refine ⟨⟨fun j => rfl, fun j => rfl, ?_⟩, ?_⟩
  · intro c
    by_cases hc : c = d.client
    · subst hc; simp [Bank.view, mapSet_self]
    · simp [Bank.view, mapSet_of_ne _ _ hc]
  · intro hsome
    refine Bank.ext_of_pointwise ?_ (fun j => rfl) (fun j => rfl)
    intro c
    by_cases hc : c = d.client
    · subst hc
      rcases ho : b.accounts d.client with _ | a
      · rw [ho] at hsome; simp at hsome
      · simp [mapSet_self, Bank.view, ho]
    · simp [mapSet_of_ne _ _ hc]

theorem dispute_missing_deposit_cex :
    Bank.empty.deposits 0 = none ∧
    Bank.empty.handle_transaction (.Dispute ⟨1, 0⟩) ≠ Bank.empty := by
  refine ⟨rfl, fun h => ?_⟩
  have h1 := congrArg (fun bb => bb.accounts 1) h
  simp [Bank.handle_transaction, Bank.empty, mapSet, Transaction.client_id,
    defaultAccount] at h1

theorem dispute_missing_deposit_witness :
    simpleDemo.handle_transaction (.Dispute ⟨1, 7⟩) = simpleDemo :=
  (dispute_missing_deposit simpleDemo ⟨1, 7⟩ (by rfl)).2 (by rfl)

/-- Claim C4: when a deposit record for tx exists with matching client, the account
is unlocked and tx is already disputed, a second dispute still moves the
deposit amount from available to held (the hold is double-counted) while the
disputed-set is unchanged. -/
theorem reentrant_dispute_double_hold (b : Bank) (c tx : ℕ) (dep : TransactionAmountData)
    (hdep : b.deposits tx = some dep) (hclient : dep.client = c)
    (hdisp : b.disputes tx = true) (hunlocked : (b.view c).locked = false) :
    ((b.handle_transaction (.Dispute ⟨c, tx⟩)).view c).available
        = (b.view c).available - dep.amount ∧
    ((b.handle_transaction (.Dispute ⟨c, tx⟩)).view c).held
        = (b.view c).held + dep.amount ∧
    (∀ j, (b.handle_transaction (.Dispute ⟨c, tx⟩)).disputes j = b.disputes j) := by
  rw [handle_dispute_found b ⟨c, tx⟩ dep hunlocked hdep hclient.symm]
  refine ⟨by simp [Bank.view, mapSet_self], by simp [Bank.view, mapSet_self], ?_⟩
  intro j
  by_cases hj : j = tx
  · subst hj; simp [mapSet_self, hdisp]
  · simp [mapSet_of_ne _ _ hj]

theorem reentrant_dispute_double_hold_witness :
    ((disputedDemo.handle_transaction (.Dispute ⟨1, 1⟩)).view 1).available
        = (disputedDemo.view 1).available - 5 ∧
    ((disputedDemo.handle_transaction (.Dispute ⟨1, 1⟩)).view 1).held
        = (disputedDemo.view 1).held + 5 ∧
    (disputedDemo.handle_transaction (.Dispute ⟨1, 1⟩)).disputes 1
        = disputedDemo.disputes 1 := by
  obtain ⟨h1, h2, h3⟩ :=
    reentrant_dispute_double_hold disputedDemo 1 1 ⟨1, 1, 5⟩ rfl rfl rfl rfl
  exact ⟨h1, h2, h3 1⟩

/-- Claim C5: a resolve or chargeback whose tx is disputed but whose client id
differs from the deposit record's client id removes tx from the disputed-set
yet changes no account's balances or lock state and leaves the deposits map
untouched: the hold is not reversed. -/
theorem mismatched_resolve_chargeback (b : Bank) (c tx : ℕ) (dep : TransactionAmountData)
    (hdisp : b.disputes tx = true) (hdep : b.deposits tx = some dep)
    (hne : dep.client ≠ c) (hunlocked : (b.view c).locked = false) :
    ((b.handle_transaction (.Resolve ⟨c, tx⟩)).disputes tx = false ∧
     (∀ j, j ≠ tx → (b.handle_transaction (.Resolve ⟨c, tx⟩)).disputes j = b.disputes j) ∧
     (∀ c2, (b.handle_transaction (.Resolve ⟨c, tx⟩)).view c2 = b.view c2) ∧
     (∀ j, (b.handle_transaction (.Resolve ⟨c, tx⟩)).deposits j = b.deposits j)) ∧
    ((b.handle_transaction (.Chargeback ⟨c, tx⟩)).disputes tx = false ∧
     (∀ j, j ≠ tx → (b.handle_transaction (.Chargeback ⟨c, tx⟩)).disputes j = b.disputes j) ∧
     (∀ c2, (b.handle_transaction (.Chargeback ⟨c, tx⟩)).view c2 = b.view c2) ∧
     (∀ j, (b.handle_transaction (.Chargeback ⟨c, tx⟩)).deposits j = b.deposits j)) := by
  have hne' : (⟨c, tx⟩ : TransactionData).client ≠ dep.client := fun h => hne h.symm
  have hframe : ∀ c2, ({ b with
      accounts := mapSet b.accounts c (some (b.view c)),
      disputes := mapSet b.disputes tx false } : Bank).view c2 = b.view c2 := by
    intro c2
    by_cases hc : c2 = c
    · subst hc; simp [Bank.view, mapSet_self]
    · simp [Bank.view, mapSet_of_ne _ _ hc]
  constructor
  · rw [handle_resolve_mismatch b ⟨c, tx⟩ dep hunlocked hdisp hdep hne']
    exact ⟨by simp [mapSet_self], fun j hj => by simp [mapSet_of_ne _ _ hj],
      hframe, fun j => rfl⟩
  · rw [handle_chargeback_mismatch b ⟨c, tx⟩ dep hunlocked hdisp hdep hne']
    exact ⟨by simp [mapSet_self], fun j hj => by simp [mapSet_of_ne _ _ hj],
      hframe, fun j => rfl⟩

theorem mismatched_resolve_chargeback_witness :
    (disputedDemo.handle_transaction (.Resolve ⟨2, 1⟩)).disputes 1 = false ∧
    (disputedDemo.handle_transaction (.Resolve ⟨2, 1⟩)).view 1 = disputedDemo.view 1 ∧
    (disputedDemo.handle_transaction (.Chargeback ⟨2, 1⟩)).disputes 1 = false ∧
    (disputedDemo.handle_transaction (.Chargeback ⟨2, 1⟩)).view 1 = disputedDemo.view 1 := by
  obtain ⟨⟨r1, _, r3, _⟩, ⟨k1, _, k3, _⟩⟩ :=
    mismatched_resolve_chargeback disputedDemo 2 1 ⟨1, 1, 5⟩ rfl rfl (by decide) rfl
  exact ⟨r1, r3 1, k1, k3 1⟩

/-- Claim C6: deposit, dispute, resolve for the same client and tx restores
available and held to their values right after the deposit, and leaves tx out
of the disputed-set. -/
theorem dispute_resolve_roundtrip (b : Bank) (c tx : ℕ) (A : ℚ)
    (hfresh : b.deposits tx = none) (hunlocked : (b.view c).locked = false) :
    ((depositDisputeResolve b c tx A).view c).available
        = ((b.handle_transaction (.Deposit ⟨c, tx, A⟩)).view c).available ∧
    ((depositDisputeResolve b c tx A).view c).held
        = ((b.handle_transaction (.Deposit ⟨c, tx, A⟩)).view c).held ∧
    (depositDisputeResolve b c tx A).disputes tx = false := by
  simp only [depositDisputeResolve]
  set b1 := b.handle_transaction (.Deposit ⟨c, tx, A⟩) with hb1def
  have hb1eq : b1 = { b with
      accounts := mapSet b.accounts c
        (some { b.view c with available := (b.view c).available + A }),
      deposits := mapSet b.deposits tx (some ⟨c, tx, A⟩) } := by
    rw [hb1def]
    simpa using handle_deposit b ⟨c, tx, A⟩ hunlocked
  have hview1 : b1.view c = { b.view c with available := (b.view c).available + A } := by
    rw [hb1eq]; simp [Bank.view, mapSet_self]
  have hlk1 : (b1.view c).locked = false := by rw [hview1]; exact hunlocked
  have hdep1 : b1.deposits tx = some ⟨c, tx, A⟩ := by
    rw [hb1eq]; simp [mapSet_self]
  set b2 := b1.handle_transaction (.Dispute ⟨c, tx⟩) with hb2def
  have hb2eq : b2 = { b1 with
      accounts := mapSet b1.accounts c
        (some { b1.view c with
          available := (b1.view c).available - A,
          held := (b1.view c).held + A }),
      disputes := mapSet b1.disputes tx true } := by
    rw [hb2def]
    simpa using handle_dispute_found b1 ⟨c, tx⟩ ⟨c, tx, A⟩ hlk1 hdep1 rfl
  have hview2 : b2.view c = { b1.view c with
      available := (b1.view c).available - A,
      held := (b1.view c).held + A } := by
    rw [hb2eq]; simp [Bank.view, mapSet_self]
  have hlk2 : (b2.view c).locked = false := by rw [hview2]; exact hlk1
  have hdisp2 : b2.disputes tx = true := by rw [hb2eq]; simp [mapSet_self]
  have hdep2 : b2.deposits tx = some ⟨c, tx, A⟩ := by rw [hb2eq]; exact hdep1
  have hb3eq : b2.handle_transaction (.Resolve ⟨c, tx⟩) = { b2 with
      accounts := mapSet b2.accounts c
        (some { b2.view c with
          held := (b2.view c).held - A,
          available := (b2.view c).available + A }),
      disputes := mapSet b2.disputes tx false } := by
    simpa using handle_resolve_found b2 ⟨c, tx⟩ ⟨c, tx, A⟩ hlk2 hdisp2 hdep2 rfl
  have hview3 : (b2.handle_transaction (.Resolve ⟨c, tx⟩)).view c = { b2.view c with
      held := (b2.view c).held - A,
      available := (b2.view c).available + A } := by
    rw [hb3eq]; simp [Bank.view, mapSet_self]
  refine ⟨?_, ?_, by rw [hb3eq]; simp [mapSet_self]⟩
  · rw [hview3, hview2]
    simp
  · rw [hview3, hview2]
    simp

/-- Claim C3 (amended): deposit, dispute, chargeback for the same client and fresh
tx yields held and available equal to their values before the whole triple
(the deposited amount A is entirely removed, previously held funds stay held)
and locked true; afterward every transaction for that client is a no-op. -/
theorem deposit_dispute_chargeback_locks (b : Bank) (c tx : ℕ) (A : ℚ)
    (hfresh : b.deposits tx = none) (hunlocked : (b.view c).locked = false) :
    ((depositDisputeChargeback b c tx A).view c).held = (b.view c).held ∧
    ((depositDisputeChargeback b c tx A).view c).available = (b.view c).available ∧
    ((depositDisputeChargeback b c tx A).view c).locked = true ∧
    ∀ t, t.client_id = c →
      (depositDisputeChargeback b c tx A).handle_transaction t
        = depositDisputeChargeback b c tx A := by
  simp only [depositDisputeChargeback]
  set b1 := b.handle_transaction (.Deposit ⟨c, tx, A⟩) with hb1def
  have hb1eq : b1 = { b with
      accounts := mapSet b.accounts c
        (some { b.view c with available := (b.view c).available + A }),
      deposits := mapSet b.deposits tx (some ⟨c, tx, A⟩) } := by
    rw [hb1def]
    simpa using handle_deposit b ⟨c, tx, A⟩ hunlocked
  have hview1 : b1.view c = { b.view c with available := (b.view c).available + A } := by
    rw [hb1eq]; simp [Bank.view, mapSet_self]
  have hlk1 : (b1.view c).locked = false := by rw [hview1]; exact hunlocked
  have hdep1 : b1.deposits tx = some ⟨c, tx, A⟩ := by
    rw [hb1eq]; simp [mapSet_self]
  set b2 := b1.handle_transaction (.Dispute ⟨c, tx⟩) with hb2def
  have hb2eq : b2 = { b1 with
      accounts := mapSet b1.accounts c
        (some { b1.view c with
          available := (b1.view c).available - A,
          held := (b1.view c).held + A }),
      disputes := mapSet b1.disputes tx true } := by
    rw [hb2def]
    simpa using handle_dispute_found b1 ⟨c, tx⟩ ⟨c, tx, A⟩ hlk1 hdep1 rfl
  have hview2 : b2.view c = { b1.view c with
      available := (b1.view c).available - A,
      held := (b1.view c).held + A } := by
    rw [hb2eq]; simp [Bank.view, mapSet_self]
  have hlk2 : (b2.view c).locked = false := by rw [hview2]; exact hlk1
  have hdisp2 : b2.disputes tx = true := by rw [hb2eq]; simp [mapSet_self]
  have hdep2 : b2.deposits tx = some ⟨c, tx, A⟩ := by rw [hb2eq]; exact hdep1
  set b3 := b2.handle_transaction (.Chargeback ⟨c, tx⟩) with hb3def
  have hb3eq : b3 = { b2 with
      accounts := mapSet b2.accounts c
        (some { b2.view c with
          held := (b2.view c).held - A,
          locked := true }),
      disputes := mapSet b2.disputes tx false } := by
    rw [hb3def]
    simpa using handle_chargeback_found b2 ⟨c, tx⟩ ⟨c, tx, A⟩ hlk2 hdisp2 hdep2 rfl
  have hview3 : b3.view c = { b2.view c with
      held := (b2.view c).held - A,
      locked := true } := by
    rw [hb3eq]; simp [Bank.view, mapSet_self]
  have hsome3 : (b3.accounts c).isSome = true := by
    rw [hb3eq]; simp [mapSet_self]
  refine ⟨?_, ?_, ?_, ?_⟩
  · rw [hview3, hview2, hview1]
    simp
  · rw [hview3, hview2, hview1]
    simp
  · rw [hview3]
  · intro t ht
    exact locked_no_op b3 t (ht.symm ▸ hsome3) (by rw [ht, hview3])

theorem deposit_dispute_chargeback_locks_witness :
    ((depositDisputeChargeback Bank.empty 1 1 5).view 1).held
        = (Bank.empty.view 1).held ∧
    ((depositDisputeChargeback Bank.empty 1 1 5).view 1).available
        = (Bank.empty.view 1).available ∧
    ((depositDisputeChargeback Bank.empty 1 1 5).view 1).locked = true ∧
    (depositDisputeChargeback Bank.empty 1 1 5).handle_transaction (.Deposit ⟨1, 9, 2⟩)
        = depositDisputeChargeback Bank.empty 1 1 5 := by
  obtain ⟨h1, h2, h3, h4⟩ := deposit_dispute_chargeback_locks Bank.empty 1 1 5 rfl rfl
  exact ⟨h1, h2, h3, h4 (.Deposit ⟨1, 9, 2⟩) rfl⟩

theorem deposit_dispute_chargeback_cex :
    (disputedDemo.view 1).locked = false ∧
    disputedDemo.deposits 2 = none ∧
    ¬(((depositDisputeChargeback disputedDemo 1 2 7).view 1).held = 0 ∧
      ((depositDisputeChargeback disputedDemo 1 2 7).view 1).available
        = (disputedDemo.view 1).available + 7) := by
  refine ⟨rfl, rfl, ?_⟩
  rintro ⟨h1, h2⟩
  norm_num [disputedDemo, depositDisputeChargeback, applyAll, Bank.runFrom,
    Bank.handle_transaction, Bank.view, mapSet, Bank.empty, defaultAccount,
    Transaction.client_id] at h1

theorem dispute_resolve_roundtrip_witness :
    ((depositDisputeResolve Bank.empty 1 1 5).view 1).available
        = ((Bank.empty.handle_transaction (.Deposit ⟨1, 1, 5⟩)).view 1).available ∧
    ((depositDisputeResolve Bank.empty 1 1 5).view 1).held
        = ((Bank.empty.handle_transaction (.Deposit ⟨1, 1, 5⟩)).view 1).held ∧
    (depositDisputeResolve Bank.empty 1 1 5).disputes 1 = false :=
  dispute_resolve_roundtrip Bank.empty 1 1 5 rfl rfl

theorem disputes_subset_step (b : Bank) (t : Transaction)
    (h : ∀ j, b.disputes j = true → (b.deposits j).isSome = true) :
    ∀ j, (b.handle_transaction t).disputes j = true →
      ((b.handle_transaction t).deposits j).isSome = true := by
  intro j
  by_cases hl : (b.view t.client_id).locked = true
  · rw [handle_locked b t hl]
    exact h j
  · simp only [Bool.not_eq_true] at hl
    cases t with
    | Deposit d =>
        rw [handle_deposit b d hl]
        intro hj
        by_cases hjx : j = d.tx
        · subst hjx; simp [mapSet_self]
        · simp only [mapSet, hjx, if_false]
          exact h j hj
    | Withdrawal d =>
        by_cases hle : d.amount ≤ (b.view d.client).available
        · rw [handle_withdrawal_applied b d hl hle]; exact h j
        · rw [handle_withdrawal_declined b d hl hle]; exact h j
    | Dispute d =>
        rcases hdep : b.deposits d.tx with _ | dep
        · rw [handle_dispute_missing b d hl hdep]; exact h j
        · by_cases hcl : d.client = dep.client
          · rw [handle_dispute_found b d dep hl hdep hcl]
            intro hj
            by_cases hjx : j = d.tx
            · subst hjx; simp [hdep]
            · simp only [mapSet, hjx, if_false] at hj
              exact h j hj
          · rw [handle_dispute_mismatch b d dep hl hdep hcl]; exact h j
    | Resolve d =>
        by_cases hd : b.disputes d.tx = true
        · rcases hdep : b.deposits d.tx with _ | dep
          · rw [handle_resolve_missing b d hl hd hdep]
            intro hj
            by_cases hjx : j = d.tx
            · subst hjx; simp [mapSet_self] at hj
            · simp only [mapSet, hjx, if_false] at hj
              exact h j hj
          · by_cases hcl : d.client = dep.client
            · rw [handle_resolve_found b d dep hl hd hdep hcl]
              intro hj
              by_cases hjx : j = d.tx
              · subst hjx; simp [mapSet_self] at hj
              · simp only [mapSet, hjx, if_false] at hj
                exact h j hj
            · rw [handle_resolve_mismatch b d dep hl hd hdep hcl]
              intro hj
              by_cases hjx : j = d.tx
              · subst hjx; simp [mapSet_self] at hj
              · simp only [mapSet, hjx, if_false] at hj
                exact h j hj
        · simp only [Bool.not_eq_true] at hd
          rw [handle_resolve_not_disputed b d hl hd]
          exact h j
    | Chargeback d =>
        by_cases hd : b.disputes d.tx = true
        · rcases hdep : b.deposits d.tx with _ | dep
          · rw [handle_chargeback_missing b d hl hd hdep]
            intro hj
            by_cases hjx : j = d.tx
            · subst hjx; simp [mapSet_self] at hj
            · simp only [mapSet, hjx, if_false] at hj
              exact h j hj
          · by_cases hcl : d.client = dep.client
            · rw [handle_chargeback_found b d dep hl hd hdep hcl]
              intro hj
              by_cases hjx : j = d.tx
              · subst hjx; simp [mapSet_self] at hj
              · simp only [mapSet, hjx, if_false] at hj
                exact h j hj
            · rw [handle_chargeback_mismatch b d dep hl hd hdep hcl]
              intro hj
              by_cases hjx : j = d.tx
              · subst hjx; simp [mapSet_self] at hj
              · simp only [mapSet, hjx, if_false] at hj
                exact h j hj
        · simp only [Bool.not_eq_true] at hd
          rw [handle_chargeback_not_disputed b d hl hd]
          exact h j

theorem disputes_subset_runFrom (b : Bank) (ts : List Transaction)
    (h : ∀ j, b.disputes j = true → (b.deposits j).isSome = true) :
    ∀ j, (b.runFrom ts).disputes j = true → ((b.runFrom ts).deposits j).isSome = true := by
  induction ts generalizing b with
  | nil => exact h
  | cons t ts ih => exact ih (b.handle_transaction t) (disputes_subset_step b t h)

/-- Claim C10: in every bank state reachable from the empty bank, every tx id in
the disputed-set has a deposit record; the Resolve/Chargeback branch that
removes a tx from the disputed-set and then finds no deposit record is
unreachable. -/
theorem disputed_ids_have_deposit_records (ts : List Transaction) (j : ℕ)
    (h : (applyAll ts).disputes j = true) :
    ∃ dep, (applyAll ts).deposits j = some dep := by
  have hs := disputes_subset_runFrom Bank.empty ts
    (fun j hj => by simp [Bank.empty] at hj) j h
  exact Option.isSome_iff_exists.mp hs

theorem disputed_ids_have_deposit_records_witness :
    ((applyAll [.Deposit ⟨1, 1, 5⟩, .Dispute ⟨1, 1⟩]).deposits 1).isSome = true := by
  obtain ⟨dep, hdep⟩ := disputed_ids_have_deposit_records
    [.Deposit ⟨1, 1, 5⟩, .Dispute ⟨1, 1⟩] 1 rfl
  rw [hdep]
  rfl

/-- Claim C9 (amended): the header check of `from_reader` accepts exactly the
headers whose cells, after trimming surrounding whitespace, are the four
cells type, client, tx, amount in that order, compared exactly (case
sensitively); any other header yields an `invalidHeader` result carrying the
trimmed header. -/
theorem from_reader_header_check (header : List String) :
    (from_reader header = HeaderCheck.ok ↔ header.map trimCell = EXPECTED_HEADER) ∧
    (header.map trimCell ≠ EXPECTED_HEADER →
      from_reader header = HeaderCheck.invalidHeader (header.map trimCell)) := by
  constructor
  · constructor
    · intro h
      by_cases he : header.map trimCell = EXPECTED_HEADER
      · exact he
      · simp [from_reader, he] at h
    · intro h
      simp [from_reader, h]
  · intro h
    simp [from_reader, h]

theorem from_reader_header_check_witness :
    from_reader [" type", "client ", "tx", " amount "] = HeaderCheck.ok ∧
    from_reader ["foo"] = HeaderCheck.invalidHeader ["foo"] := by
  constructor
  · exact (from_reader_header_check [" type", "client ", "tx", " amount "]).1.mpr (by decide)
  · exact (from_reader_header_check ["foo"]).2 (by decide)

theorem from_reader_not_case_insensitive :
    headerMatchesSpec ["Type", "client", "tx", "amount"] = true ∧
    from_reader ["Type", "client", "tx", "amount"] ≠ HeaderCheck.ok := by
  exact ⟨by decide, by decide⟩

theorem total_mk_write (acc : ℕ → Option Account) (dep2 : ℕ → Option TransactionAmountData)
    (dis : ℕ → Bool) (k : ℕ) (a : Account) (c : ℕ) :
    (Bank.mk (mapSet acc k (some a)) dep2 dis).total c
      = if c = k then a.available + a.held
        else ((acc c).getD defaultAccount).available + ((acc c).getD defaultAccount).held := by
  by_cases hc : c = k <;> simp [Bank.total, Bank.view, mapSet, hc]

theorem total_step (b : Bank) (t : Transaction) (c : ℕ) :
    (b.handle_transaction t).total c =
      b.total c + depositContrib b t c - withdrawalContrib b t c - chargebackContrib b t c := by
  by_cases hl : (b.view t.client_id).locked = true
  · rw [handle_locked b t hl]
    rw [total_mk_write]
    cases t with
    | Deposit d =>
        have hl2 : ((b.accounts d.client).getD defaultAccount).locked = true := hl
        by_cases hc : c = d.client <;>
          simp [depositContrib, withdrawalContrib, chargebackContrib, hl2, hc,
            Transaction.client_id, Bank.total, Bank.view] <;> try ring
    | Withdrawal d =>
        have hl2 : ((b.accounts d.client).getD defaultAccount).locked = true := hl
        by_cases hc : c = d.client <;>
          simp [depositContrib, withdrawalContrib, chargebackContrib, hl2, hc,
            Transaction.client_id, Bank.total, Bank.view] <;> try ring
    | Dispute d =>
        have hl2 : ((b.accounts d.client).getD defaultAccount).locked = true := hl
        by_cases hc : c = d.client <;>
          simp [depositContrib, withdrawalContrib, chargebackContrib, hl2, hc,
            Transaction.client_id, Bank.total, Bank.view] <;> try ring
    | Resolve d =>
        have hl2 : ((b.accounts d.client).getD defaultAccount).locked = true := hl
        by_cases hc : c = d.client <;>
          simp [depositContrib, withdrawalContrib, chargebackContrib, hl2, hc,
            Transaction.client_id, Bank.total, Bank.view] <;> try ring
    | Chargeback d =>
        have hl2 : ((b.accounts d.client).getD defaultAccount).locked = true := hl
        by_cases hc : c = d.client <;>
          simp [depositContrib, withdrawalContrib, chargebackContrib, hl2, hc,
            Transaction.client_id, Bank.total, Bank.view] <;> try ring
  · simp only [Bool.not_eq_true] at hl
    cases t with
    | Deposit d =>
        have hl2 : ((b.accounts d.client).getD defaultAccount).locked = false := hl
        rw [handle_deposit b d hl, total_mk_write]
        by_cases hc : c = d.client
        · simp [depositContrib, withdrawalContrib, chargebackContrib, hl2, hc,
            Bank.total, Bank.view] <;> try ring
        · simp [depositContrib, withdrawalContrib, chargebackContrib, hl2, hc, Ne.symm hc,
            Bank.total, Bank.view] <;> try ring
    | Withdrawal d =>
        have hl2 : ((b.accounts d.client).getD defaultAccount).locked = false := hl
        by_cases hle : d.amount ≤ (b.view d.client).available
        · have hle2 : d.amount ≤ ((b.accounts d.client).getD defaultAccount).available := hle
          rw [handle_withdrawal_applied b d hl hle, total_mk_write]
          by_cases hc : c = d.client
          · simp [depositContrib, withdrawalContrib, chargebackContrib, hl2, hc, hle2,
              Bank.total, Bank.view] <;> try ring
          · simp [depositContrib, withdrawalContrib, chargebackContrib, hl2, hc, Ne.symm hc,
              hle2, Bank.total, Bank.view] <;> try ring
        · have hle2 : ¬ d.amount ≤ ((b.accounts d.client).getD defaultAccount).available := hle
          rw [handle_withdrawal_declined b d hl hle, total_mk_write]
          by_cases hc : c = d.client <;>
            simp [depositContrib, withdrawalContrib, chargebackContrib, hl2, hc, hle2,
              Bank.total, Bank.view] <;> try ring
    | Dispute d =>
        have hl2 : ((b.accounts d.client).getD defaultAccount).locked = false := hl
        rcases hdep : b.deposits d.tx with _ | dep
        · rw [handle_dispute_missing b d hl hdep, total_mk_write]
          by_cases hc : c = d.client <;>
            simp [depositContrib, withdrawalContrib, chargebackContrib, hl2, hc, hdep,
              Bank.total, Bank.view] <;> try ring
        · by_cases hcl : d.client = dep.client
          · rw [handle_dispute_found b d dep hl hdep hcl, total_mk_write]
            by_cases hc : c = d.client
            · simp [depositContrib, withdrawalContrib, chargebackContrib, hl2, hc, hdep, hcl,
                Bank.total, Bank.view] <;> try ring
            · have hc2 : ¬ c = dep.client := hcl ▸ hc
              simp [depositContrib, withdrawalContrib, chargebackContrib, hl2, hc, hc2,
                hdep, hcl, Bank.total, Bank.view] <;> try ring
          · rw [handle_dispute_mismatch b d dep hl hdep hcl, total_mk_write]
            by_cases hc : c = d.client <;>
              simp [depositContrib, withdrawalContrib, chargebackContrib, hl2, hc, hdep, hcl,
                Bank.total, Bank.view] <;> try ring
    | Resolve d =>
        have hl2 : ((b.accounts d.client).getD defaultAccount).locked = false := hl
        by_cases hd : b.disputes d.tx = true
        · rcases hdep : b.deposits d.tx with _ | dep
          · rw [handle_resolve_missing b d hl hd hdep, total_mk_write]
            by_cases hc : c = d.client <;>
              simp [depositContrib, withdrawalContrib, chargebackContrib, hl2, hc, hd, hdep,
                Bank.total, Bank.view] <;> try ring
          · by_cases hcl : d.client = dep.client
            · rw [handle_resolve_found b d dep hl hd hdep hcl, total_mk_write]
              by_cases hc : c = d.client
              · simp [depositContrib, withdrawalContrib, chargebackContrib, hl2, hc, hd,
                  hdep, hcl, Bank.total, Bank.view] <;> try ring
              · have hc2 : ¬ c = dep.client := hcl ▸ hc
                simp [depositContrib, withdrawalContrib, chargebackContrib, hl2, hc, hc2,
                  hd, hdep, hcl, Bank.total, Bank.view] <;> try ring
            · rw [handle_resolve_mismatch b d dep hl hd hdep hcl, total_mk_write]
              by_cases hc : c = d.client <;>
                simp [depositContrib, withdrawalContrib, chargebackContrib, hl2, hc, hd,
                  hdep, hcl, Bank.total, Bank.view] <;> try ring
        · simp only [Bool.not_eq_true] at hd
          rw [handle_resolve_not_disputed b d hl hd, total_mk_write]
          by_cases hc : c = d.client <;>
            simp [depositContrib, withdrawalContrib, chargebackContrib, hl2, hc, hd,
              Bank.total, Bank.view] <;> try ring
    | Chargeback d =>
        have hl2 : ((b.accounts d.client).getD defaultAccount).locked = false := hl
        by_cases hd : b.disputes d.tx = true
        · rcases hdep : b.deposits d.tx with _ | dep
          · rw [handle_chargeback_missing b d hl hd hdep, total_mk_write]
            by_cases hc : c = d.client <;>
              simp [depositContrib, withdrawalContrib, chargebackContrib, hl2, hc, hd, hdep,
                Bank.total, Bank.view] <;> try ring
          · by_cases hcl : d.client = dep.client
            · rw [handle_chargeback_found b d dep hl hd hdep hcl, total_mk_write]
              have hl3 : ((b.accounts dep.client).getD defaultAccount).locked = false :=
                hcl ▸ hl2
              by_cases hc : c = d.client
              · simp [depositContrib, withdrawalContrib, chargebackContrib, hl2, hl3, hc,
                  hd, hdep, hcl, Bank.total, Bank.view] <;> try ring
              · have hc2 : ¬ c = dep.client := hcl ▸ hc
                simp [depositContrib, withdrawalContrib, chargebackContrib, hl2, hl3, hc,
                  hc2, Ne.symm hc2, hd, hdep, hcl, Bank.total, Bank.view] <;> try ring
            · rw [handle_chargeback_mismatch b d dep hl hd hdep hcl, total_mk_write]
              by_cases hc : c = d.client <;>
                simp [depositContrib, withdrawalContrib, chargebackContrib, hl2, hc, hd,
                  hdep, hcl, Bank.total, Bank.view] <;> try ring
        · simp only [Bool.not_eq_true] at hd
          rw [handle_chargeback_not_disputed b d hl hd, total_mk_write]
          by_cases hc : c = d.client <;>
            simp [depositContrib, withdrawalContrib, chargebackContrib, hl2, hc, hd,
              Bank.total, Bank.view] <;> try ring

theorem total_runFrom (b : Bank) (ts : List Transaction) (c : ℕ) :
    (b.runFrom ts).total c =
      b.total c + contribSum depositContrib b ts c
        - contribSum withdrawalContrib b ts c
        - contribSum chargebackContrib b ts c := by
  induction ts generalizing b with
  | nil => simp [Bank.runFrom, contribSum]
  | cons t ts ih =>
      have hstep := total_step b t c
      have htail := ih (b.handle_transaction t)
      have hrw : (b.runFrom (t :: ts)) = (b.handle_transaction t).runFrom ts := rfl
      rw [hrw, htail, hstep]
      simp only [contribSum]
      ring

/-- Claim C1: after replaying any transaction list from the empty bank, each
client's available + held equals the sum of deposit amounts applied to that
client, minus the amounts of its successful withdrawals, minus the deposit
amounts removed by its successful chargebacks. -/
theorem conservation_of_funds (ts : List Transaction) (c : ℕ) :
    ((applyAll ts).view c).available + ((applyAll ts).view c).held =
      contribSum depositContrib Bank.empty ts c
        - contribSum withdrawalContrib Bank.empty ts c
        - contribSum chargebackContrib Bank.empty ts c := by
  have h := total_runFrom Bank.empty ts c
  have hz : Bank.empty.total c = 0 := by
    simp [Bank.total, Bank.view, Bank.empty, defaultAccount]
  rw [applyAll] at *
  rw [show ((Bank.empty.runFrom ts).view c).available + ((Bank.empty.runFrom ts).view c).held
      = (Bank.empty.runFrom ts).total c from rfl, h, hz]
  ring

end ToyPayment
